import Mathlib

/-!
Shallow embedding of the cross-frame visualization subsystem of
accessibility-insights-web: the `DrawingController` from
src/injected/drawing-controller.ts, together with spec-modelled
collaborators (the results-by-frame partitioner, drawers, the instance
visibility checker and the frame communicator, whose sources are not in
the repository snapshot).
-/

/-- `FeatureFlagStoreData`: a finite string-keyed dictionary of booleans.
A missing key reads as `undefined`, i.e. falsy. -/
abbrev FeatureFlagStoreData := List (String × Bool)

/-- JS-object indexing `dict[key]` for a string-keyed dictionary:
`none` models `undefined`. -/
def dictGet {β : Type} : List (String × β) → String → Option β
  | [], _ => none
  | p :: rest, k => if p.1 = k then some p.2 else dictGet rest k

/-- Truthiness of the feature-flag lookup `data[flag]`:
a missing key is `undefined`, which is falsy. -/
def flagValue (d : FeatureFlagStoreData) (flag : String) : Bool :=
  (dictGet d flag).getD false

namespace FeatureFlags

/-- `FeatureFlags.showInstanceVisibility`, the flag consulted by
`DrawingController.enableVisualization`. -/
def showInstanceVisibility : String := "showInstanceVisibility"

end FeatureFlags

/-- `AssessmentVisualizationInstance`: one scan finding bound to a DOM target.
`isVisible` and `isVisualizationEnabled` are tri-state (`none` = unset).
`targetFrame` is the frame-path metadata consulted by the partitioner:
`none` means the target lives in the current document, `some k` that it lives
in iframe `k` of the current document.  `selector` stands for the identifying
data carried to the Drawer. -/
structure AssessmentVisualizationInstance where
  isVisible : Option Bool := none
  isVisualizationEnabled : Option Bool := none
  targetFrame : Option Nat := none
  selector : Nat := 0
deriving DecidableEq, Repr

/-- `HTMLIFrameResult`: one partition of the scan results; `frame = none`
means "belongs to the current document", `some k` the results for iframe `k`. -/
structure HTMLIFrameResult where
  frame : Option Nat
  elementResults : List AssessmentVisualizationInstance
deriving DecidableEq, Repr

/-- Modelled from the spec: `HtmlElementAxeResultsHelper.splitResultsByFrame`
(src/injected/frameCommunicators/html-element-axe-results-helper.ts is not in
the source snapshot; only its caller is).  Per spec §4.2, each instance is
grouped by the frame that owns its target element, resolved from the
instance's frame-path metadata; instances with no frame path form the
`frame: null` partition; instances sharing an iframe path share one
`HTMLIFrameResult`. -/
def splitResultsByFrame (elementResults : List AssessmentVisualizationInstance) :
    List HTMLIFrameResult :=
  ((elementResults.map AssessmentVisualizationInstance.targetFrame).dedup).map
    (fun fr =>
      { frame := fr
        elementResults := elementResults.filter (fun r => decide (r.targetFrame = fr)) })

/-- Modelled from the spec: a `Drawer` (src/injected/visualization/drawer.ts is
not in the source snapshot).  Per spec §4.4 a drawer owns the overlay DOM for
one configId: `initWith` (the source's `initialize`) stores the element data
and feature-flag snapshot, `drawLayout` renders overlay nodes for each
visible, enabled instance of its data, `eraseLayout` removes every overlay
node it owns and is idempotent and safe on an uninitialized drawer.
`initData = none` models an uninitialized drawer or a `null` data payload;
`overlay` is the set of overlay DOM nodes currently present. -/
structure Drawer where
  initData : Option (List AssessmentVisualizationInstance) := none
  featureFlagStoreData : Option FeatureFlagStoreData := none
  overlay : List AssessmentVisualizationInstance := []
deriving DecidableEq, Repr

namespace Drawer

/-- Modelled from the spec: `drawer.initialize({data, featureFlagStoreData})`
stores the initial element data and the feature-flag snapshot. -/
def initWith (d : Drawer) (data : Option (List AssessmentVisualizationInstance))
    (ffsd : Option FeatureFlagStoreData) : Drawer :=
  { d with initData := data, featureFlagStoreData := ffsd }

/-- The spec §4.4 rendering condition: `isVisible !== false` and
`isVisualizationEnabled !== false` (an unset flag is treated as "show"). -/
def shouldRender (r : AssessmentVisualizationInstance) : Bool :=
  !decide (r.isVisible = some false) && !decide (r.isVisualizationEnabled = some false)

/-- Modelled from the spec: `drawer.drawLayout()` creates overlay DOM nodes
positioned over each visible, enabled instance of its initial data. -/
def drawLayout (d : Drawer) : Drawer :=
  { d with overlay := (d.initData.getD []).filter shouldRender }

/-- Modelled from the spec: `drawer.eraseLayout()` removes all overlay DOM
nodes the drawer owns; idempotent and safe on an uninitialized drawer. -/
def eraseLayout (d : Drawer) : Drawer :=
  { d with overlay := [] }

end Drawer

/-- `VisualizationWindowMessage` from src/injected/drawing-controller.ts:
the wire payload exchanged between frames.  Visualization types are modelled
as numbers (the TS enum's numeric values). -/
structure VisualizationWindowMessage where
  visualizationType : Nat
  isEnabled : Bool
  configId : String
  elementResults : Option (List AssessmentVisualizationInstance) := none
  featureFlagStoreData : Option FeatureFlagStoreData := none
deriving DecidableEq, Repr

/-- `MessageRequest` from the frame communicator: an outbound envelope naming
the target iframe element (by its id in the document model) and the command. -/
structure MessageRequest where
  command : String
  frame : Nat
  message : VisualizationWindowMessage
deriving DecidableEq, Repr

/-- The mutable state of one frame's `DrawingController` together with the
observable effects of its spec-modelled collaborators: `drawers` is the
registry (`_drawers`, a JS object keyed by configId), `featureFlagStoreData`
the `_featureFlagStoreData` field (`none` = `undefined`), `intervals` the
visibility-checker intervals alive per configId (spec §4.3: at most one per
configId), `subscriptions` the commands subscribed on the frame communicator,
and `sent` the log of messages handed to `frameCommunicator.sendMessage`. -/
structure DrawingController where
  drawers : List (String × Drawer) := []
  featureFlagStoreData : Option FeatureFlagStoreData := none
  intervals : List (String × Nat) := []
  subscriptions : List String := []
  sent : List MessageRequest := []
deriving DecidableEq, Repr

namespace DrawingController

/-- `DrawingController.triggerVisualizationCommand`. -/
def triggerVisualizationCommand : String := "insights.draw"

/-- Modelled from the spec: `InstanceVisibilityChecker.createVisibilityCheckerInterval`
(src/injected/instance-visibility-checker.ts is not in the source snapshot).
Per spec §4.3 it first clears any previous interval for the same configId,
then starts one recurring check for (configId, visualizationType). -/
def createVisibilityCheckerInterval (ivs : List (String × Nat)) (configId : String)
    (visualizationType : Nat) : List (String × Nat) :=
  (configId, visualizationType) :: ivs.filter (fun p => !decide (p.1 = configId))

/-- Modelled from the spec: `InstanceVisibilityChecker.clearVisibilityCheck`
stops and removes the interval for a configId; safe no-op when none exists. -/
def clearVisibilityCheck (ivs : List (String × Nat)) (configId : String) :
    List (String × Nat) :=
  ivs.filter (fun p => !decide (p.1 = configId))

/-- JS object update `this._drawers[configId] = drawer` on an existing key. -/
def updateDrawer (l : List (String × Drawer)) (k : String) (v : Drawer) :
    List (String × Drawer) :=
  l.map (fun p => if p.1 = k then (k, v) else p)

/-- `getDrawer`: `this._drawers[configId]`; `none` models `undefined` on an
unknown configId. -/
def getDrawer (c : DrawingController) (configId : String) : Option Drawer :=
  dictGet c.drawers configId

/-- `getInitialElements`: `null` in, `null` out; otherwise keeps exactly the
results with `isVisible !== false && isVisualizationEnabled !== false`. -/
def getInitialElements (currentFrameResults : Option (List AssessmentVisualizationInstance)) :
    Option (List AssessmentVisualizationInstance) :=
  match currentFrameResults with
  | none => none
  | some rs => some (rs.filter Drawer.shouldRender)

/-- `createFrameRequestMessage`: wraps a payload for one target iframe under
the trigger command. -/
def createFrameRequestMessage (frame : Nat) (message : VisualizationWindowMessage) :
    MessageRequest :=
  { command := triggerVisualizationCommand, frame := frame, message := message }

/-- `enableVisualizationInCurrentFrame`: looks the drawer up, initializes it
with the filtered results and the stored feature-flag data, and draws.  A
missing drawer makes the JS `drawer.initialize` call throw, modelled as
`Except.error`. -/
def enableVisualizationInCurrentFrame (c : DrawingController)
    (currentFrameResults : Option (List AssessmentVisualizationInstance))
    (configId : String) : Except String DrawingController :=
  match getDrawer c configId with
  | none => .error "TypeError: drawer is undefined"
  | some drawer =>
    let drawer := (drawer.initWith (getInitialElements currentFrameResults)
      c.featureFlagStoreData).drawLayout
    .ok { c with drawers := updateDrawer c.drawers configId drawer }

/-- `enableVisualizationInIFrames`: builds the scoped enable message for one
iframe and hands it to the frame communicator (spec §4.1 `sendMessage` is
fire-and-forget; modelled as appending to the `sent` log). -/
def enableVisualizationInIFrames (c : DrawingController) (visualizationType : Nat)
    (frame : Nat) (frameResults : Option (List AssessmentVisualizationInstance))
    (configId : String) : DrawingController :=
  let message : VisualizationWindowMessage :=
    { elementResults := frameResults
      isEnabled := true
      visualizationType := visualizationType
      featureFlagStoreData := c.featureFlagStoreData
      configId := configId }
  { c with sent := c.sent ++ [createFrameRequestMessage frame message] }

/-- The `for` loop of `enableVisualization` over the partitions.  For the
`frame: null` partition the source reads
`this._featureFlagStoreData[FeatureFlags.showInstanceVisibility]`, which
throws when `_featureFlagStoreData` is `undefined` (modelled as
`Except.error`). -/
def enableFrameLoop (visualizationType : Nat) (configId : String) :
    DrawingController → List HTMLIFrameResult → Except String DrawingController
  | c, [] => .ok c
  | c, resultsForFrame :: rest =>
    match resultsForFrame.frame with
    | none =>
      match c.featureFlagStoreData with
      | none => .error "TypeError: featureFlagStoreData is undefined"
      | some ffsd =>
        let c := if flagValue ffsd FeatureFlags.showInstanceVisibility then
            { c with intervals :=
                createVisibilityCheckerInterval c.intervals configId visualizationType }
          else c
        match enableVisualizationInCurrentFrame c (some resultsForFrame.elementResults) configId with
        | .error e => .error e
        | .ok c => enableFrameLoop visualizationType configId c rest
    | some frame =>
      enableFrameLoop visualizationType configId
        (enableVisualizationInIFrames c visualizationType frame
          (some resultsForFrame.elementResults) configId) rest

/-- `enableVisualization`: with partitions, run the loop; without, draw the
current frame with no data then forward an enable message (no data) to every
iframe currently in the document (`doc` is `getAllFrames()`, the list of
iframes present). -/
def enableVisualization (doc : List Nat) (c : DrawingController) (visualizationType : Nat)
    (elementResultsByFrames : Option (List HTMLIFrameResult)) (configId : String) :
    Except String DrawingController :=
  match elementResultsByFrames with
  | some frames => enableFrameLoop visualizationType configId c frames
  | none =>
    match enableVisualizationInCurrentFrame c none configId with
    | .error e => .error e
    | .ok c =>
      .ok (doc.foldl (fun c frame =>
        enableVisualizationInIFrames c visualizationType frame none configId) c)

/-- `disableVisualizationInCurrentFrame`: erase the drawer's layout; a missing
drawer makes the JS `drawer.eraseLayout` call throw. -/
def disableVisualizationInCurrentFrame (c : DrawingController) (configId : String) :
    Except String DrawingController :=
  match getDrawer c configId with
  | none => .error "TypeError: drawer is undefined"
  | some drawer =>
    .ok { c with drawers := updateDrawer c.drawers configId drawer.eraseLayout }

/-- `disableVisualizationInIFrames`: one disable message per iframe currently
in the document. -/
def disableVisualizationInIFrames (doc : List Nat) (c : DrawingController)
    (visualizationType : Nat) (configId : String) : DrawingController :=
  doc.foldl (fun c iframe =>
    { c with sent := c.sent ++ [createFrameRequestMessage iframe
        { isEnabled := false, visualizationType := visualizationType, configId := configId }] }) c

/-- `disableVisualization`: erase the current frame, fan the disable out to
every iframe, clear the visibility interval. -/
def disableVisualization (doc : List Nat) (c : DrawingController)
    (visualizationType : Nat) (configId : String) : Except String DrawingController :=
  match disableVisualizationInCurrentFrame c configId with
  | .error e => .error e
  | .ok c =>
    let c := disableVisualizationInIFrames doc c visualizationType configId
    .ok { c with intervals := clearVisibilityCheck c.intervals configId }

/-- `processRequest`: stores the message's feature-flag data, then dispatches
on `isEnabled`, partitioning `elementResults` by frame when present. -/
def processRequest (doc : List Nat) (c : DrawingController)
    (message : VisualizationWindowMessage) : Except String DrawingController :=
  let c := { c with featureFlagStoreData := message.featureFlagStoreData }
  if message.isEnabled then
    enableVisualization doc c message.visualizationType
      (message.elementResults.map splitResultsByFrame) message.configId
  else
    disableVisualization doc c message.visualizationType message.configId

/-- `invokeMethodIfExists(method, data)`: calls the method when supplied.
The responder is modelled by whether it was supplied; the result is the list
of values it was invoked with (`none` models JS `null`). -/
def invokeMethodIfExists (methodSupplied : Bool) (data : Option Nat) : List (Option Nat) :=
  if methodSupplied then [data] else []

/-- `onTriggerVisualization`: the subscribed handler; processes the request
and then invokes the responder (when supplied) with `null`.  A throw inside
`processRequest` propagates, so the responder is then never invoked. -/
def onTriggerVisualization (doc : List Nat) (c : DrawingController)
    (result : VisualizationWindowMessage) (responderSupplied : Bool) :
    Except String (DrawingController × List (Option Nat)) :=
  match processRequest doc c result with
  | .error e => .error e
  | .ok c => .ok (c, invokeMethodIfExists responderSupplied none)

/-- `dispose()`: `forOwn(this._drawers, d => d.eraseLayout())`. -/
def dispose (c : DrawingController) : DrawingController :=
  { c with drawers := c.drawers.map (fun p => (p.1, p.2.eraseLayout)) }

end DrawingController

/-- `VisualizationConfiguration`: the slice of the external visualization
configuration the controller consumes — the identifier function producing the
configId for a visualization type, optionally specialized to a test step. -/
structure VisualizationConfig where
  getIdentifier : Option String → String

/-- The external collaborators `setupDrawers` enumerates: the numeric values
of the `VisualizationType` enum, the configuration per type, the
assessment-provider's validity test and step map (its step keys). -/
structure ControllerDeps where
  visualizationTypes : List Nat
  getConfiguration : Nat → VisualizationConfig
  isValidType : Nat → Bool
  getStepKeys : Nat → List String

namespace DrawingController

/-- JS object assignment `this._drawers[id] = drawer`: overwrites an existing
key, otherwise appends a new entry. -/
def assocSet (l : List (String × Drawer)) (k : String) (v : Drawer) :
    List (String × Drawer) :=
  if (dictGet l k).isSome then updateDrawer l k v else l ++ [(k, v)]

/-- `setupDrawers`: enumerates every visualization type; for assessment-style
types one drawer per test step (`config.getIdentifier(step.key)`), otherwise
one drawer (`config.getIdentifier()`).  Freshly built drawers are idle. -/
def setupDrawers (deps : ControllerDeps) : List (String × Drawer) :=
  deps.visualizationTypes.foldl (fun acc vt =>
    let config := deps.getConfiguration vt
    if deps.isValidType vt then
      (deps.getStepKeys vt).foldl (fun acc stepKey =>
        assocSet acc (config.getIdentifier (some stepKey)) { }) acc
    else
      assocSet acc (config.getIdentifier none) { }) []

/-- `initialize()` of the controller: subscribes to the trigger command on the
frame communicator and eagerly builds the full drawer registry. -/
def initController (deps : ControllerDeps) (c : DrawingController) : DrawingController :=
  { c with
    subscriptions := c.subscriptions ++ [triggerVisualizationCommand]
    drawers := setupDrawers deps }

end DrawingController

/-- All configIds `setupDrawers` derives, in enumeration order: for each
visualization type, the per-step identifiers for assessment-style types and
the single identifier otherwise. -/
def allConfigIds (deps : ControllerDeps) : List String :=
  deps.visualizationTypes.flatMap (fun vt =>
    if deps.isValidType vt then
      (deps.getStepKeys vt).map (fun s => (deps.getConfiguration vt).getIdentifier (some s))
    else
      [(deps.getConfiguration vt).getIdentifier none])

/-- The registry built by folding JS object assignment over a list of ids. -/
def buildRegistry (ids : List String) : List (String × Drawer) :=
  ids.foldl (fun acc id => DrawingController.assocSet acc id { }) []

/-- The messages `enableVisualization` sends while walking the partitions:
one scoped enable message per partition with a non-null frame, carrying that
partition's `elementResults` and the stored feature-flag data. -/
def loopSends (vt : Nat) (configId : String) (ffsd : Option FeatureFlagStoreData)
    (parts : List HTMLIFrameResult) : List MessageRequest :=
  parts.filterMap (fun p => p.frame.map (fun f =>
    DrawingController.createFrameRequestMessage f
      { elementResults := some p.elementResults
        isEnabled := true
        visualizationType := vt
        featureFlagStoreData := ffsd
        configId := configId }))

/-- The element-result lists of the `frame: null` partitions, in order. -/
def nullResults (parts : List HTMLIFrameResult) :
    List (List AssessmentVisualizationInstance) :=
  (parts.filter (fun p => decide (p.frame = none))).map HTMLIFrameResult.elementResults

/-- The effect of one `frame: null` partition on (intervals, current drawer):
start visibility tracking only when the feature flag is set, then initialize
and draw the drawer with the visible+enabled subset. -/
def nullRun (ffsd : FeatureFlagStoreData) (vt : Nat) (configId : String)
    (acc : List (String × Nat) × Drawer) (rs : List AssessmentVisualizationInstance) :
    List (String × Nat) × Drawer :=
  ( if flagValue ffsd FeatureFlags.showInstanceVisibility then
      DrawingController.createVisibilityCheckerInterval acc.1 configId vt
    else acc.1
  , ((acc.2).initWith (some (rs.filter Drawer.shouldRender)) (some ffsd)).drawLayout )

/-- Folded effect of all `frame: null` partitions. -/
def nullRuns (ffsd : FeatureFlagStoreData) (vt : Nat) (configId : String)
    (acc : List (String × Nat) × Drawer) (rss : List (List AssessmentVisualizationInstance)) :
    List (String × Nat) × Drawer :=
  rss.foldl (nullRun ffsd vt configId) acc

/-- Spec §8 visibility-filter example, first instance: `{isVisible:false}`. -/
def instExample1 : AssessmentVisualizationInstance :=
  { isVisible := some false, selector := 1 }

/-- Second instance: `{isVisualizationEnabled:false}`. -/
def instExample2 : AssessmentVisualizationInstance :=
  { isVisualizationEnabled := some false, selector := 2 }

/-- Third instance: `{}` (both flags unset). -/
def instExample3 : AssessmentVisualizationInstance :=
  { selector := 3 }

/-- Fourth instance: `{isVisible:true, isVisualizationEnabled:true}`. -/
def instExample4 : AssessmentVisualizationInstance :=
  { isVisible := some true, isVisualizationEnabled := some true, selector := 4 }

/-- The spec §8 visibility-filter input array. -/
def exampleInstances : List AssessmentVisualizationInstance :=
  [instExample1, instExample2, instExample3, instExample4]

/-- A controller with one registered drawer for configId "cfg". -/
def cZero : DrawingController :=
  { drawers := [("cfg", { })] }

/-- An enable message carrying the example results and a feature-flag store. -/
def msgEnable : VisualizationWindowMessage :=
  { visualizationType := 2
    isEnabled := true
    configId := "cfg"
    elementResults := some exampleInstances
    featureFlagStoreData := some [(FeatureFlags.showInstanceVisibility, true)] }

/-- An enable message with no element results. -/
def msgEnableNoData : VisualizationWindowMessage :=
  { visualizationType := 2
    isEnabled := true
    configId := "cfg"
    elementResults := none
    featureFlagStoreData := some [] }

/-- A disable message. -/
def msgDisable : VisualizationWindowMessage :=
  { visualizationType := 2
    isEnabled := false
    configId := "cfg" }

/-- An enable message carrying element results but no feature-flag store. -/
def msgNoFlags : VisualizationWindowMessage :=
  { visualizationType := 2
    isEnabled := true
    configId := "cfg"
    elementResults := some [{ }]
    featureFlagStoreData := none }
/-- A small concrete dependency set: visualization type 0 is a plain type with
identifier "v0"; type 1 is assessment-style with steps "s1", "s2" whose
identifiers are the step keys. -/
def depsExample : ControllerDeps :=
  { visualizationTypes := [0, 1]
    getConfiguration := fun vt =>
      { getIdentifier := fun s =>
          match s with
          | none => if vt = 0 then "v0" else "v1"
          | some k => k }
    isValidType := fun vt => decide (vt = 1)
    getStepKeys := fun _ => ["s1", "s2"] }

theorem join_keyed_filter_perm (keys : List (Option Nat))
    (l : List AssessmentVisualizationInstance) (hnd : keys.Nodup)
    (hall : ∀ r ∈ l, r.targetFrame ∈ keys) :
    List.Perm ((keys.map (fun fr => l.filter (fun r => decide (r.targetFrame = fr)))).flatten) l := by
  induction keys generalizing l with
  | nil =>
    have hl : l = [] := by
      cases l with
      | nil => rfl
      | cons a as => exact absurd (hall a (by simp)) (by simp)
    subst hl; simp
  | cons k ks ih =>
    have hk : k ∉ ks := (List.nodup_cons.mp hnd).1
    have hnd' : ks.Nodup := (List.nodup_cons.mp hnd).2
    have hmapeq : ks.map (fun fr => l.filter (fun r => decide (r.targetFrame = fr)))
        = ks.map (fun fr =>
            (l.filter (fun r => !decide (r.targetFrame = k))).filter
              (fun r => decide (r.targetFrame = fr))) := by
      apply List.map_congr_left
      intro fr hfr
      rw [List.filter_filter]
      apply List.filter_congr
      intro x _
      by_cases hx : x.targetFrame = fr
      · have hfrk : fr ≠ k := fun h => hk (h ▸ hfr)
        simp [hx, hfrk]
      · simp [hx]
    have hall' : ∀ r ∈ l.filter (fun r => !decide (r.targetFrame = k)),
        r.targetFrame ∈ ks := by
      intro r hr
      have hmem := List.mem_of_mem_filter hr
      have hne : ¬(r.targetFrame = k) := by
        have := List.of_mem_filter hr
        simpa using this
      have := hall r hmem
      simp only [List.mem_cons] at this
      exact this.resolve_left hne
    have hperm' := ih (l.filter (fun r => !decide (r.targetFrame = k))) hnd' hall'
    have hjoin : ((k :: ks).map (fun fr => l.filter (fun r => decide (r.targetFrame = fr)))).flatten
        = l.filter (fun r => decide (r.targetFrame = k))
          ++ (ks.map (fun fr =>
              (l.filter (fun r => !decide (r.targetFrame = k))).filter
                (fun r => decide (r.targetFrame = fr)))).flatten := by
      rw [List.map_cons, List.flatten_cons, hmapeq]
    rw [hjoin]
    exact (List.Perm.append_left _ hperm').trans (List.filter_append_perm _ l)

/-- C5: for every array of `elementResults`, `splitResultsByFrame` returns
partitions whose concatenation is a permutation of the input, the partitions
carry pairwise-distinct frames, and every instance sits in the partition of
its own frame — so every instance is placed in exactly one partition and none
is duplicated. -/
theorem C5_splitResultsByFrame_partition (rs : List AssessmentVisualizationInstance) :
    List.Perm (((splitResultsByFrame rs).map HTMLIFrameResult.elementResults).flatten) rs ∧
    ((splitResultsByFrame rs).map HTMLIFrameResult.frame).Nodup ∧
    (∀ p ∈ splitResultsByFrame rs, ∀ r ∈ p.elementResults, r.targetFrame = p.frame) := by
  refine ⟨?_, ?_, ?_⟩
  · have h := join_keyed_filter_perm ((rs.map AssessmentVisualizationInstance.targetFrame).dedup)
      rs (List.nodup_dedup _)
      (fun r hr => List.mem_dedup.mpr (List.mem_map_of_mem _ hr))
    simpa [splitResultsByFrame, List.map_map, Function.comp] using h
  · have h2 : (splitResultsByFrame rs).map HTMLIFrameResult.frame
        = (rs.map AssessmentVisualizationInstance.targetFrame).dedup := by
      rw [splitResultsByFrame, List.map_map]
      exact List.map_id _
    rw [h2]
    exact List.nodup_dedup _
  · intro p hp r hr
    simp only [splitResultsByFrame, List.mem_map] at hp
    obtain ⟨fr, _, rfl⟩ := hp
    simpa using List.of_mem_filter hr

theorem dictGet_eq_none {β : Type} (l : List (String × β)) (k : String) :
    dictGet l k = none ↔ k ∉ l.map Prod.fst := by
  induction l with
  | nil => simp [dictGet]
  | cons p rest ih =>
    simp only [dictGet, List.map_cons, List.mem_cons]
    by_cases hp : p.1 = k
    · simp [hp]
    · simp only [if_neg hp, ih]
      constructor
      · intro h hk
        rcases hk with hk | hk
        · exact hp hk.symm
        · exact h hk
      · exact fun h hk => h (Or.inr hk)

theorem updateDrawer_map_fst (l : List (String × Drawer)) (k : String) (v : Drawer) :
    (DrawingController.updateDrawer l k v).map Prod.fst = l.map Prod.fst := by
  induction l with
  | nil => rfl
  | cons p rest ih =>
    by_cases hp : p.1 = k
    · simp [DrawingController.updateDrawer, hp] at ih ⊢
      exact ih
    · simp [DrawingController.updateDrawer, hp] at ih ⊢
      exact ih

theorem dictGet_updateDrawer_self (l : List (String × Drawer)) (k : String) (v : Drawer)
    (h : (dictGet l k).isSome) :
    dictGet (DrawingController.updateDrawer l k v) k = some v := by
  induction l with
  | nil => simp [dictGet] at h
  | cons p rest ih =>
    by_cases hp : p.1 = k
    · simp [DrawingController.updateDrawer, dictGet, hp]
    · simp [dictGet, hp] at h
      simp [DrawingController.updateDrawer, dictGet, hp] at ih ⊢
      exact ih h

theorem dictGet_updateDrawer_ne (l : List (String × Drawer)) (k : String) (v : Drawer)
    (k' : String) (h : k' ≠ k) :
    dictGet (DrawingController.updateDrawer l k v) k' = dictGet l k' := by
  induction l with
  | nil => rfl
  | cons p rest ih =>
    by_cases hp : p.1 = k
    · have : ¬(k = k') := fun hh => h hh.symm
      simp [DrawingController.updateDrawer, dictGet, hp, this] at ih ⊢
      exact ih
    · by_cases hp' : p.1 = k'
      · simp [DrawingController.updateDrawer, dictGet, hp, hp', h]
      · simp [DrawingController.updateDrawer, dictGet, hp, hp'] at ih ⊢
        exact ih

theorem dictGet_map_snd (l : List (String × Drawer)) (f : Drawer → Drawer) (k : String) :
    dictGet (l.map (fun p => (p.1, f p.2))) k = (dictGet l k).map f := by
  induction l with
  | nil => rfl
  | cons p rest ih =>
    by_cases hp : p.1 = k
    · simp [dictGet, hp]
    · simp [dictGet, hp, ih]

theorem enable_fanout (doc : List Nat) (c : DrawingController) (vt : Nat) (configId : String) :
    doc.foldl (fun c frame =>
      DrawingController.enableVisualizationInIFrames c vt frame none configId) c
    = { c with sent := c.sent ++ doc.map (fun f =>
        DrawingController.createFrameRequestMessage f
          { elementResults := none
            isEnabled := true
            visualizationType := vt
            featureFlagStoreData := c.featureFlagStoreData
            configId := configId }) } := by
  induction doc generalizing c with
  | nil => simp
  | cons d ds ih =>
    rw [List.foldl_cons]
    rw [ih]
    simp [DrawingController.enableVisualizationInIFrames]

theorem disable_fanout (doc : List Nat) (c : DrawingController) (vt : Nat) (configId : String) :
    DrawingController.disableVisualizationInIFrames doc c vt configId
    = { c with sent := c.sent ++ doc.map (fun f =>
        DrawingController.createFrameRequestMessage f
          { isEnabled := false, visualizationType := vt, configId := configId }) } := by
  rw [DrawingController.disableVisualizationInIFrames]
  induction doc generalizing c with
  | nil => simp
  | cons d ds ih =>
    rw [List.foldl_cons]
    rw [ih]
    simp

theorem enableFrameLoop_cons_some (vt : Nat) (configId : String) (c : DrawingController)
    (p : HTMLIFrameResult) (rest : List HTMLIFrameResult) (f : Nat)
    (hpf : p.frame = some f) :
    DrawingController.enableFrameLoop vt configId c (p :: rest)
    = DrawingController.enableFrameLoop vt configId
        (DrawingController.enableVisualizationInIFrames c vt f (some p.elementResults) configId)
        rest := by
  simp [DrawingController.enableFrameLoop, hpf]

theorem enableFrameLoop_cons_none (vt : Nat) (configId : String) (c : DrawingController)
    (p : HTMLIFrameResult) (rest : List HTMLIFrameResult)
    (ffsd : FeatureFlagStoreData) (d0 : Drawer)
    (hpf : p.frame = none) (hff : c.featureFlagStoreData = some ffsd)
    (hdr : DrawingController.getDrawer c configId = some d0) :
    DrawingController.enableFrameLoop vt configId c (p :: rest)
    = DrawingController.enableFrameLoop vt configId
        { c with
          intervals :=
            if flagValue ffsd FeatureFlags.showInstanceVisibility then
              DrawingController.createVisibilityCheckerInterval c.intervals configId vt
            else c.intervals
          drawers := DrawingController.updateDrawer c.drawers configId
            ((d0.initWith (some (p.elementResults.filter Drawer.shouldRender))
              (some ffsd)).drawLayout) }
        rest := by
  have hdict : dictGet c.drawers configId = some d0 := hdr
  simp only [DrawingController.enableFrameLoop, hpf]
  rw [hff]
  by_cases hflag : flagValue ffsd FeatureFlags.showInstanceVisibility
  · simp [hflag, DrawingController.enableVisualizationInCurrentFrame,
      DrawingController.getDrawer, DrawingController.getInitialElements, hdict]
  · simp [hflag, DrawingController.enableVisualizationInCurrentFrame,
      DrawingController.getDrawer, DrawingController.getInitialElements, hdict, hff]

theorem enableFrameLoop_spec (vt : Nat) (configId : String)
    (parts : List HTMLIFrameResult) (c : DrawingController)
    (ffsd : FeatureFlagStoreData) (d0 : Drawer)
    (hff : c.featureFlagStoreData = some ffsd)
    (hdr : DrawingController.getDrawer c configId = some d0) :
    ∃ c', DrawingController.enableFrameLoop vt configId c parts = .ok c' ∧
      c'.featureFlagStoreData = some ffsd ∧
      c'.subscriptions = c.subscriptions ∧
      c'.drawers.map Prod.fst = c.drawers.map Prod.fst ∧
      c'.sent = c.sent ++ loopSends vt configId (some ffsd) parts ∧
      c'.intervals = (nullRuns ffsd vt configId (c.intervals, d0) (nullResults parts)).1 ∧
      DrawingController.getDrawer c' configId
        = some (nullRuns ffsd vt configId (c.intervals, d0) (nullResults parts)).2 := by
  induction parts generalizing c d0 with
  | nil =>
    refine ⟨c, rfl, hff, rfl, rfl, by simp [loopSends], ?_, ?_⟩
    · simp [nullResults, nullRuns]
    · simpa [nullResults, nullRuns] using hdr
  | cons p rest ih =>
    cases hpf : p.frame with
    | some f =>
      obtain ⟨c', hrun, h1, h2, h3, h4, h5, h6⟩ :=
        ih (DrawingController.enableVisualizationInIFrames c vt f
          (some p.elementResults) configId) d0 hff hdr
      refine ⟨c', ?_, h1, h2, h3, ?_, ?_, ?_⟩
      · rw [enableFrameLoop_cons_some vt configId c p rest f hpf]
        exact hrun
      · rw [h4]
        simp [DrawingController.enableVisualizationInIFrames, loopSends,
          List.filterMap_cons, hpf, hff, List.append_assoc]
      · rw [h5]
        simp [DrawingController.enableVisualizationInIFrames, nullResults, hpf]
      · rw [h6]
        simp [DrawingController.enableVisualizationInIFrames, nullResults, hpf]
    | none =>
      have hsome : (dictGet c.drawers configId).isSome := by
        have : dictGet c.drawers configId = some d0 := hdr
        simp [this]
      obtain ⟨c', hrun, h1, h2, h3, h4, h5, h6⟩ :=
        ih { c with
              intervals :=
                if flagValue ffsd FeatureFlags.showInstanceVisibility then
                  DrawingController.createVisibilityCheckerInterval c.intervals configId vt
                else c.intervals
              drawers := DrawingController.updateDrawer c.drawers configId
                ((d0.initWith (some (p.elementResults.filter Drawer.shouldRender))
                  (some ffsd)).drawLayout) }
          ((d0.initWith (some (p.elementResults.filter Drawer.shouldRender))
            (some ffsd)).drawLayout)
          hff
          (dictGet_updateDrawer_self c.drawers configId _ hsome)
      refine ⟨c', ?_, h1, h2, ?_, ?_, ?_, ?_⟩
      · rw [enableFrameLoop_cons_none vt configId c p rest ffsd d0 hpf hff hdr]
        exact hrun
      · rw [h3]
        exact updateDrawer_map_fst c.drawers configId _
      · rw [h4]
        simp [loopSends, List.filterMap_cons, hpf]
      · rw [h5]
        simp [nullResults, nullRuns, hpf, nullRun]
      · rw [h6]
        simp [nullResults, nullRuns, hpf, nullRun]

theorem filter_shouldRender_idem (l : List AssessmentVisualizationInstance) :
    (l.filter Drawer.shouldRender).filter Drawer.shouldRender
    = l.filter Drawer.shouldRender := by
  rw [List.filter_filter]
  apply List.filter_congr
  intro x _
  exact Bool.and_self _

theorem nodup_filter_eq {α : Type} [DecidableEq α] {l : List α} (h : l.Nodup) (a : α) :
    l.filter (fun x => decide (x = a)) = if a ∈ l then [a] else [] := by
  induction l with
  | nil => simp
  | cons x xs ih =>
    have hx : x ∉ xs := (List.nodup_cons.mp h).1
    have hxs := ih (List.nodup_cons.mp h).2
    by_cases hxa : x = a
    · subst hxa
      have hnil : xs.filter (fun y => decide (y = x)) = [] := by
        rw [List.filter_eq_nil_iff]
        intro y hy
        simp only [decide_eq_true_eq]
        intro hyx
        exact hx (hyx ▸ hy)
      simp [List.filter_cons, hnil]
    · have hax : ¬a = x := fun h' => hxa h'.symm
      simp [List.filter_cons, hxa, List.mem_cons, hax, hxs]

theorem split_map_frame (rs : List AssessmentVisualizationInstance) :
    (splitResultsByFrame rs).map HTMLIFrameResult.frame
    = (rs.map AssessmentVisualizationInstance.targetFrame).dedup := by
  rw [splitResultsByFrame, List.map_map]
  exact List.map_id _

theorem nullResults_split (rs : List AssessmentVisualizationInstance) :
    nullResults (splitResultsByFrame rs)
    = if none ∈ rs.map AssessmentVisualizationInstance.targetFrame then
        [rs.filter (fun r => decide (r.targetFrame = none))]
      else [] := by
  rw [nullResults, splitResultsByFrame, List.filter_map]
  have hcomp : ((fun p : HTMLIFrameResult => decide (p.frame = none)) ∘ fun fr =>
      ({ frame := fr
         elementResults := rs.filter (fun r => decide (r.targetFrame = fr)) } : HTMLIFrameResult))
      = fun fr => decide (fr = none) := rfl
  rw [hcomp]
  rw [nodup_filter_eq (List.nodup_dedup _) none]
  by_cases hmem : none ∈ rs.map AssessmentVisualizationInstance.targetFrame
  · rw [if_pos (List.mem_dedup.mpr hmem), if_pos hmem]
    rfl
  · rw [if_neg (fun h => hmem (List.mem_dedup.mp h)), if_neg hmem]
    rfl

theorem mem_split_null (rs : List AssessmentVisualizationInstance)
    (r : AssessmentVisualizationInstance) (hr : r ∈ rs) (hrf : r.targetFrame = none) :
    ∃ p ∈ splitResultsByFrame rs, p.frame = none := by
  refine ⟨{ frame := none
            elementResults := rs.filter (fun x => decide (x.targetFrame = none)) }, ?_, rfl⟩
  rw [splitResultsByFrame]
  apply List.mem_map_of_mem
  exact List.mem_dedup.mpr (hrf ▸ List.mem_map_of_mem _ hr)

theorem split_null_elems (rs : List AssessmentVisualizationInstance)
    (p : HTMLIFrameResult) (hp : p ∈ splitResultsByFrame rs) (hpf : p.frame = none) :
    p.elementResults = rs.filter (fun r => decide (r.targetFrame = none)) := by
  rw [splitResultsByFrame] at hp
  obtain ⟨fr, _, rfl⟩ := List.mem_map.mp hp
  simp only at hpf
  rw [hpf]

theorem split_null_mem_targetFrame (rs : List AssessmentVisualizationInstance)
    (p : HTMLIFrameResult) (hp : p ∈ splitResultsByFrame rs) (hpf : p.frame = none) :
    none ∈ rs.map AssessmentVisualizationInstance.targetFrame := by
  rw [splitResultsByFrame] at hp
  obtain ⟨fr, hfr, rfl⟩ := List.mem_map.mp hp
  simp only at hpf
  exact List.mem_dedup.mp (hpf ▸ hfr)

theorem enableFrameLoop_error (vt : Nat) (configId : String)
    (parts : List HTMLIFrameResult) (c : DrawingController)
    (hff : c.featureFlagStoreData = none)
    (hmem : ∃ p ∈ parts, p.frame = none) :
    DrawingController.enableFrameLoop vt configId c parts
    = .error "TypeError: featureFlagStoreData is undefined" := by
  induction parts generalizing c with
  | nil => simp at hmem
  | cons p rest ih =>
    cases hpf : p.frame with
    | none =>
      simp only [DrawingController.enableFrameLoop, hpf]
      rw [hff]
    | some f =>
      rw [enableFrameLoop_cons_some vt configId c p rest f hpf]
      apply ih
      · exact hff
      · obtain ⟨q, hq, hqf⟩ := hmem
        rcases List.mem_cons.mp hq with hq | hq
        · exact absurd (hq ▸ hqf) (by simp [hpf])
        · exact ⟨q, hq, hqf⟩

theorem processRequest_enable_some (doc : List Nat) (c : DrawingController)
    (msg : VisualizationWindowMessage) (rs : List AssessmentVisualizationInstance)
    (h1 : msg.isEnabled = true) (h2 : msg.elementResults = some rs) :
    DrawingController.processRequest doc c msg
    = DrawingController.enableFrameLoop msg.visualizationType msg.configId
        { c with featureFlagStoreData := msg.featureFlagStoreData }
        (splitResultsByFrame rs) := by
  simp [DrawingController.processRequest, h1, h2, DrawingController.enableVisualization]

theorem processRequest_enable_none (doc : List Nat) (c : DrawingController)
    (msg : VisualizationWindowMessage) (d0 : Drawer)
    (h1 : msg.isEnabled = true) (h2 : msg.elementResults = none)
    (hdr : DrawingController.getDrawer c msg.configId = some d0) :
    DrawingController.processRequest doc c msg
    = .ok { c with
        featureFlagStoreData := msg.featureFlagStoreData
        drawers := DrawingController.updateDrawer c.drawers msg.configId
          { initData := none
            featureFlagStoreData := msg.featureFlagStoreData
            overlay := [] }
        sent := c.sent ++ doc.map (fun f => DrawingController.createFrameRequestMessage f
          { elementResults := none
            isEnabled := true
            visualizationType := msg.visualizationType
            featureFlagStoreData := msg.featureFlagStoreData
            configId := msg.configId }) } := by
  have hdict : dictGet c.drawers msg.configId = some d0 := hdr
  simp [DrawingController.processRequest, h1, h2, DrawingController.enableVisualization,
    DrawingController.enableVisualizationInCurrentFrame, DrawingController.getDrawer,
    DrawingController.getInitialElements, hdict, enable_fanout, Drawer.initWith,
    Drawer.drawLayout]

theorem processRequest_disable (doc : List Nat) (c : DrawingController)
    (msg : VisualizationWindowMessage) (d0 : Drawer)
    (h1 : msg.isEnabled = false)
    (hdr : DrawingController.getDrawer c msg.configId = some d0) :
    DrawingController.processRequest doc c msg
    = .ok { c with
        featureFlagStoreData := msg.featureFlagStoreData
        drawers := DrawingController.updateDrawer c.drawers msg.configId d0.eraseLayout
        intervals := DrawingController.clearVisibilityCheck c.intervals msg.configId
        sent := c.sent ++ doc.map (fun f => DrawingController.createFrameRequestMessage f
          { isEnabled := false
            visualizationType := msg.visualizationType
            configId := msg.configId }) } := by
  have hdict : dictGet c.drawers msg.configId = some d0 := hdr
  simp [DrawingController.processRequest, h1, DrawingController.disableVisualization,
    DrawingController.disableVisualizationInCurrentFrame, DrawingController.getDrawer,
    hdict, disable_fanout]

theorem enableFrameLoop_keys (vt : Nat) (configId : String) (parts : List HTMLIFrameResult) :
    ∀ (c c₂ : DrawingController),
      DrawingController.enableFrameLoop vt configId c parts = .ok c₂ →
      c₂.drawers.map Prod.fst = c.drawers.map Prod.fst := by
  induction parts with
  | nil =>
    intro c c₂ h
    simp only [DrawingController.enableFrameLoop, Except.ok.injEq] at h
    rw [← h]
  | cons p rest ih =>
    intro c c₂ h
    cases hpf : p.frame with
    | some f =>
      rw [enableFrameLoop_cons_some vt configId c p rest f hpf] at h
      have hk := ih _ _ h
      simpa [DrawingController.enableVisualizationInIFrames] using hk
    | none =>
      cases hff : c.featureFlagStoreData with
      | none => simp [DrawingController.enableFrameLoop, hpf, hff] at h
      | some ffsd =>
        cases hdr : dictGet c.drawers configId with
        | none =>
          by_cases hflag : flagValue ffsd FeatureFlags.showInstanceVisibility
          · simp [DrawingController.enableFrameLoop, hpf, hff, hflag,
              DrawingController.enableVisualizationInCurrentFrame,
              DrawingController.getDrawer, hdr] at h
          · simp [DrawingController.enableFrameLoop, hpf, hff, hflag,
              DrawingController.enableVisualizationInCurrentFrame,
              DrawingController.getDrawer, hdr] at h
        | some d0 =>
          rw [enableFrameLoop_cons_none vt configId c p rest ffsd d0 hpf hff hdr] at h
          have hk := ih _ _ h
          rw [hk]
          exact updateDrawer_map_fst _ _ _

theorem processRequest_keys (doc : List Nat) (c : DrawingController)
    (msg : VisualizationWindowMessage) (c₂ : DrawingController)
    (h : DrawingController.processRequest doc c msg = .ok c₂) :
    c₂.drawers.map Prod.fst = c.drawers.map Prod.fst := by
  cases hen : msg.isEnabled with
  | true =>
    cases her : msg.elementResults with
    | some rs =>
      rw [processRequest_enable_some doc c msg rs hen her] at h
      have hk := enableFrameLoop_keys msg.visualizationType msg.configId
        (splitResultsByFrame rs) _ _ h
      exact hk
    | none =>
      cases hdr : dictGet c.drawers msg.configId with
      | none =>
        simp [DrawingController.processRequest, hen, her,
          DrawingController.enableVisualization,
          DrawingController.enableVisualizationInCurrentFrame,
          DrawingController.getDrawer, hdr] at h
      | some d0 =>
        rw [processRequest_enable_none doc c msg d0 hen her hdr] at h
        simp only [Except.ok.injEq] at h
        subst h
        simpa using updateDrawer_map_fst c.drawers msg.configId _
  | false =>
    cases hdr : dictGet c.drawers msg.configId with
    | none =>
      simp [DrawingController.processRequest, hen,
        DrawingController.disableVisualization,
        DrawingController.disableVisualizationInCurrentFrame,
        DrawingController.getDrawer, hdr] at h
    | some d0 =>
      rw [processRequest_disable doc c msg d0 hen hdr] at h
      simp only [Except.ok.injEq] at h
      subst h
      simpa using updateDrawer_map_fst c.drawers msg.configId _

theorem dictGet_isSome_mem {β : Type} (l : List (String × β)) (k : String)
    (h : (dictGet l k).isSome) : k ∈ l.map Prod.fst := by
  by_contra hk
  rw [← dictGet_eq_none] at hk
  rw [hk] at h
  simp at h

theorem assocSet_map_fst_mem (l : List (String × Drawer)) (k : String) (v : Drawer)
    (m : String) :
    m ∈ (DrawingController.assocSet l k v).map Prod.fst
    ↔ m ∈ l.map Prod.fst ∨ m = k := by
  rw [DrawingController.assocSet]
  by_cases hs : (dictGet l k).isSome
  · rw [if_pos hs, updateDrawer_map_fst]
    constructor
    · exact Or.inl
    · rintro (h | rfl)
      · exact h
      · exact dictGet_isSome_mem l m hs
  · rw [if_neg hs]
    simp

theorem assocSet_nodup (l : List (String × Drawer)) (k : String) (v : Drawer)
    (h : (l.map Prod.fst).Nodup) :
    ((DrawingController.assocSet l k v).map Prod.fst).Nodup := by
  rw [DrawingController.assocSet]
  by_cases hs : (dictGet l k).isSome
  · rw [if_pos hs, updateDrawer_map_fst]
    exact h
  · rw [if_neg hs]
    have hk : k ∉ l.map Prod.fst :=
      (dictGet_eq_none l k).mp (Option.not_isSome_iff_eq_none.mp hs)
    rw [List.map_append]
    simp only [List.map_cons, List.map_nil]
    refine List.Nodup.append h (List.nodup_singleton k) ?_
    intro a ha hb
    rw [List.mem_singleton] at hb
    exact hk (hb ▸ ha)

theorem buildRegistry_go_nodup (ids : List String) :
    ∀ acc : List (String × Drawer), (acc.map Prod.fst).Nodup →
      ((ids.foldl (fun acc id => DrawingController.assocSet acc id { }) acc).map
        Prod.fst).Nodup := by
  induction ids with
  | nil => exact fun acc h => h
  | cons i is ih =>
    intro acc h
    rw [List.foldl_cons]
    exact ih _ (assocSet_nodup acc i { } h)

theorem buildRegistry_go_mem (ids : List String) :
    ∀ (acc : List (String × Drawer)) (m : String),
      m ∈ (ids.foldl (fun acc id => DrawingController.assocSet acc id { }) acc).map Prod.fst
      ↔ m ∈ acc.map Prod.fst ∨ m ∈ ids := by
  induction ids with
  | nil => simp
  | cons i is ih =>
    intro acc m
    rw [List.foldl_cons, ih, assocSet_map_fst_mem]
    simp only [List.mem_cons]
    constructor
    · rintro ((h | h) | h)
      · exact Or.inl h
      · exact Or.inr (Or.inl h)
      · exact Or.inr (Or.inr h)
    · rintro (h | h | h)
      · exact Or.inl (Or.inl h)
      · exact Or.inl (Or.inr h)
      · exact Or.inr h

theorem foldl_flatMap_assoc (f : Nat → List String) (types : List Nat) :
    ∀ acc : List (String × Drawer),
      (types.flatMap f).foldl (fun acc id => DrawingController.assocSet acc id { }) acc
      = types.foldl (fun acc vt =>
          (f vt).foldl (fun acc id => DrawingController.assocSet acc id { }) acc) acc := by
  induction types with
  | nil => intro acc; simp
  | cons t ts ih =>
    intro acc
    rw [List.flatMap_cons, List.foldl_append, List.foldl_cons, ih]

theorem setupDrawers_eq (deps : ControllerDeps) :
    DrawingController.setupDrawers deps = buildRegistry (allConfigIds deps) := by
  rw [DrawingController.setupDrawers, buildRegistry, allConfigIds, foldl_flatMap_assoc]
  have hfun : (fun (acc : List (String × Drawer)) (vt : Nat) =>
      (if deps.isValidType vt then
          (deps.getStepKeys vt).map (fun s => (deps.getConfiguration vt).getIdentifier (some s))
        else [(deps.getConfiguration vt).getIdentifier none]).foldl
        (fun acc id => DrawingController.assocSet acc id { }) acc)
      = fun (acc : List (String × Drawer)) (vt : Nat) =>
        if deps.isValidType vt then
          (deps.getStepKeys vt).foldl (fun acc stepKey =>
            DrawingController.assocSet acc
              ((deps.getConfiguration vt).getIdentifier (some stepKey)) { }) acc
        else DrawingController.assocSet acc ((deps.getConfiguration vt).getIdentifier none) { } := by
    funext acc vt
    by_cases hv : deps.isValidType vt
    · simp [hv, List.foldl_map]
    · simp [hv]
  rw [hfun]

/-- C2: for every enable request whose `elementResults` are absent,
`processRequest` initializes and draws the current frame's Drawer with no
data, and then sends exactly one enable message (with no `elementResults`) to
every iframe currently in the document: one message per iframe, N messages
for N iframes, regardless of any earlier state. -/
theorem C2_enable_without_data_fanout (doc : List Nat) (c : DrawingController)
    (msg : VisualizationWindowMessage) (d0 : Drawer)
    (h1 : msg.isEnabled = true) (h2 : msg.elementResults = none)
    (hdr : DrawingController.getDrawer c msg.configId = some d0) :
    ∃ c', DrawingController.processRequest doc c msg = .ok c' ∧
      DrawingController.getDrawer c' msg.configId
        = some { initData := none
                 featureFlagStoreData := msg.featureFlagStoreData
                 overlay := [] } ∧
      c'.sent = c.sent ++ doc.map (fun f => DrawingController.createFrameRequestMessage f
        { elementResults := none
          isEnabled := true
          visualizationType := msg.visualizationType
          featureFlagStoreData := msg.featureFlagStoreData
          configId := msg.configId }) ∧
      c'.sent.length = c.sent.length + doc.length := by
  refine ⟨_, processRequest_enable_none doc c msg d0 h1 h2 hdr, ?_, rfl, by simp⟩
  show dictGet (DrawingController.updateDrawer c.drawers msg.configId _) msg.configId = _
  apply dictGet_updateDrawer_self
  simp [show dictGet c.drawers msg.configId = some d0 from hdr]

/-- C2 witness at a concrete controller, message and two-iframe document. -/
theorem C2_enable_without_data_fanout_witness :
    msgEnableNoData.isEnabled = true ∧ msgEnableNoData.elementResults = none ∧
    DrawingController.getDrawer cZero msgEnableNoData.configId = some { } ∧
    (∃ c', DrawingController.processRequest [5, 7] cZero msgEnableNoData = .ok c' ∧
      DrawingController.getDrawer c' msgEnableNoData.configId
        = some { initData := none
                 featureFlagStoreData := msgEnableNoData.featureFlagStoreData
                 overlay := [] } ∧
      c'.sent = cZero.sent ++ [5, 7].map (fun f => DrawingController.createFrameRequestMessage f
        { elementResults := none
          isEnabled := true
          visualizationType := msgEnableNoData.visualizationType
          featureFlagStoreData := msgEnableNoData.featureFlagStoreData
          configId := msgEnableNoData.configId }) ∧
      c'.sent.length = cZero.sent.length + ([5, 7] : List Nat).length) :=
  ⟨rfl, rfl, rfl, C2_enable_without_data_fanout [5, 7] cZero msgEnableNoData { } rfl rfl rfl⟩

/-- C4: for every disable request, `processRequest` erases the current frame's
Drawer for that configId, clears that configId's visibility interval, and
sends one disable message to every iframe currently present, regardless of the
prior state (the sent batch depends only on the current document, not on any
history of iframe membership or prior enables). -/
theorem C4_disable_current_and_fanout (doc : List Nat) (c : DrawingController)
    (msg : VisualizationWindowMessage) (d0 : Drawer)
    (h1 : msg.isEnabled = false)
    (hdr : DrawingController.getDrawer c msg.configId = some d0) :
    ∃ c', DrawingController.processRequest doc c msg = .ok c' ∧
      DrawingController.getDrawer c' msg.configId = some d0.eraseLayout ∧
      (∀ k, k ≠ msg.configId →
        DrawingController.getDrawer c' k = DrawingController.getDrawer c k) ∧
      c'.intervals = DrawingController.clearVisibilityCheck c.intervals msg.configId ∧
      c'.sent = c.sent ++ doc.map (fun f => DrawingController.createFrameRequestMessage f
        { isEnabled := false
          visualizationType := msg.visualizationType
          configId := msg.configId }) ∧
      c'.sent.length = c.sent.length + doc.length := by
  refine ⟨_, processRequest_disable doc c msg d0 h1 hdr, ?_, ?_, rfl, rfl, by simp⟩
  · show dictGet (DrawingController.updateDrawer c.drawers msg.configId _) msg.configId = _
    apply dictGet_updateDrawer_self
    simp [show dictGet c.drawers msg.configId = some d0 from hdr]
  · intro k hk
    exact dictGet_updateDrawer_ne c.drawers msg.configId _ k hk

/-- C4 witness at a concrete controller, message and two-iframe document. -/
theorem C4_disable_current_and_fanout_witness :
    msgDisable.isEnabled = false ∧
    DrawingController.getDrawer cZero msgDisable.configId = some { } ∧
    (∃ c', DrawingController.processRequest [5, 7] cZero msgDisable = .ok c' ∧
      DrawingController.getDrawer c' msgDisable.configId
        = some (Drawer.eraseLayout { }) ∧
      (∀ k, k ≠ msgDisable.configId →
        DrawingController.getDrawer c' k = DrawingController.getDrawer cZero k) ∧
      c'.intervals = DrawingController.clearVisibilityCheck cZero.intervals msgDisable.configId ∧
      c'.sent = cZero.sent ++ [5, 7].map (fun f => DrawingController.createFrameRequestMessage f
        { isEnabled := false
          visualizationType := msgDisable.visualizationType
          configId := msgDisable.configId }) ∧
      c'.sent.length = cZero.sent.length + ([5, 7] : List Nat).length) :=
  ⟨rfl, rfl, C4_disable_current_and_fanout [5, 7] cZero msgDisable { } rfl rfl⟩

/-- C6: disabling a configId that was registered but never enabled mutates no
DOM and raises no exception: `processRequest` succeeds, every drawer is
unchanged (so no overlay DOM changes), the intervals are unchanged, and both
`eraseLayout` on the never-drawn drawer and `clearVisibilityCheck` on the
never-tracked id are no-ops. -/
theorem C6_disable_never_enabled_noop (doc : List Nat) (c : DrawingController)
    (msg : VisualizationWindowMessage) (d0 : Drawer)
    (h1 : msg.isEnabled = false)
    (hdr : DrawingController.getDrawer c msg.configId = some d0)
    (hnd : d0.overlay = [])
    (hni : msg.configId ∉ c.intervals.map Prod.fst) :
    Drawer.eraseLayout d0 = d0 ∧
    DrawingController.clearVisibilityCheck c.intervals msg.configId = c.intervals ∧
    ∃ c', DrawingController.processRequest doc c msg = .ok c' ∧
      (∀ k, DrawingController.getDrawer c' k = DrawingController.getDrawer c k) ∧
      c'.intervals = c.intervals := by
  have herase : Drawer.eraseLayout d0 = d0 := by
    cases d0 with
    | mk a b ov =>
      simp only at hnd
      simp [Drawer.eraseLayout, hnd]
  have hclear : DrawingController.clearVisibilityCheck c.intervals msg.configId
      = c.intervals := by
    rw [DrawingController.clearVisibilityCheck, List.filter_eq_self]
    intro p hp
    have hne : p.1 ≠ msg.configId := fun h => hni (h ▸ List.mem_map_of_mem Prod.fst hp)
    simp [hne]
  refine ⟨herase, hclear, _, processRequest_disable doc c msg d0 h1 hdr, ?_, hclear⟩
  intro k
  by_cases hk : k = msg.configId
  · subst hk
    show dictGet (DrawingController.updateDrawer c.drawers msg.configId d0.eraseLayout)
      msg.configId = _
    rw [herase]
    rw [dictGet_updateDrawer_self c.drawers msg.configId d0
      (by simp [show dictGet c.drawers msg.configId = some d0 from hdr])]
    exact hdr.symm
  · exact dictGet_updateDrawer_ne c.drawers msg.configId _ k hk

/-- C6 witness: disable on a fresh registry entry with no interval. -/
theorem C6_disable_never_enabled_noop_witness :
    msgDisable.isEnabled = false ∧
    DrawingController.getDrawer cZero msgDisable.configId = some { } ∧
    ({ } : Drawer).overlay = [] ∧
    msgDisable.configId ∉ cZero.intervals.map Prod.fst ∧
    (Drawer.eraseLayout { } = { } ∧
     DrawingController.clearVisibilityCheck cZero.intervals msgDisable.configId
       = cZero.intervals ∧
     ∃ c', DrawingController.processRequest [] cZero msgDisable = .ok c' ∧
       (∀ k, DrawingController.getDrawer c' k = DrawingController.getDrawer cZero k) ∧
       c'.intervals = cZero.intervals) :=
  ⟨rfl, rfl, rfl, by decide,
    C6_disable_never_enabled_noop [] cZero msgDisable { } rfl rfl rfl (by decide)⟩

/-- C7: `dispose()` erases every registered Drawer's layout — afterwards every
registry entry has an empty overlay, and each drawer is exactly the erased
version of what it was — while the visibility intervals, the frame-communicator
subscriptions and the message log are left unchanged. -/
theorem C7_dispose_erases_all (c : DrawingController) :
    (∀ p ∈ (DrawingController.dispose c).drawers, p.2.overlay = []) ∧
    (∀ k, DrawingController.getDrawer (DrawingController.dispose c) k
      = (DrawingController.getDrawer c k).map Drawer.eraseLayout) ∧
    (DrawingController.dispose c).intervals = c.intervals ∧
    (DrawingController.dispose c).subscriptions = c.subscriptions ∧
    (DrawingController.dispose c).sent = c.sent := by
  refine ⟨?_, ?_, rfl, rfl, rfl⟩
  · intro p hp
    rw [DrawingController.dispose] at hp
    simp only at hp
    obtain ⟨q, _, rfl⟩ := List.mem_map.mp hp
    rfl
  · intro k
    exact dictGet_map_snd c.drawers Drawer.eraseLayout k

/-- C10: an enable message carrying `elementResults` whose partition includes
the current frame, but no `featureFlagStoreData`, makes `processRequest`
throw at the `this._featureFlagStoreData[FeatureFlags.showInstanceVisibility]`
lookup instead of skipping visibility tracking. -/
theorem C10_missing_featureFlagStoreData_throws (doc : List Nat)
    (c : DrawingController) (msg : VisualizationWindowMessage)
    (rs : List AssessmentVisualizationInstance) (r : AssessmentVisualizationInstance)
    (h1 : msg.isEnabled = true) (h2 : msg.elementResults = some rs)
    (h3 : msg.featureFlagStoreData = none)
    (hr : r ∈ rs) (hrf : r.targetFrame = none) :
    DrawingController.processRequest doc c msg
    = .error "TypeError: featureFlagStoreData is undefined" := by
  rw [processRequest_enable_some doc c msg rs h1 h2]
  apply enableFrameLoop_error
  · exact h3
  · exact mem_split_null rs r hr hrf

/-- C10 witness: a concrete enable message with results but no flag store. -/
theorem C10_missing_featureFlagStoreData_throws_witness :
    msgNoFlags.isEnabled = true ∧
    msgNoFlags.elementResults = some [{ }] ∧
    msgNoFlags.featureFlagStoreData = none ∧
    ({ } : AssessmentVisualizationInstance) ∈ [({ } : AssessmentVisualizationInstance)] ∧
    ({ } : AssessmentVisualizationInstance).targetFrame = none ∧
    DrawingController.processRequest [] { } msgNoFlags
      = .error "TypeError: featureFlagStoreData is undefined" :=
  ⟨rfl, rfl, rfl, by simp, rfl,
    C10_missing_featureFlagStoreData_throws [] { } msgNoFlags [{ }] { }
      rfl rfl rfl (by simp) rfl⟩

/-- C9 (amended): for every message on which `processRequest` completes
without raising, the subscribed handler invokes the responder with `null`
when one is supplied and completes without raising when none is supplied.
(As literally stated over all messages the claim fails: when `processRequest`
throws, the responder is never invoked — see the counterexample.) -/
theorem C9_responder_on_success (doc : List Nat) (c : DrawingController)
    (msg : VisualizationWindowMessage) (c₂ : DrawingController)
    (h : DrawingController.processRequest doc c msg = .ok c₂) :
    DrawingController.onTriggerVisualization doc c msg true = .ok (c₂, [none]) ∧
    DrawingController.onTriggerVisualization doc c msg false = .ok (c₂, []) := by
  constructor <;>
    simp [DrawingController.onTriggerVisualization, h, DrawingController.invokeMethodIfExists]

/-- C9 witness: a disable request on a registered configId succeeds and the
handler acknowledges with `null` exactly when a responder is supplied. -/
theorem C9_responder_on_success_witness :
    DrawingController.processRequest [] cZero msgDisable = .ok cZero ∧
    (DrawingController.onTriggerVisualization [] cZero msgDisable true = .ok (cZero, [none]) ∧
     DrawingController.onTriggerVisualization [] cZero msgDisable false = .ok (cZero, [])) :=
  ⟨rfl, C9_responder_on_success [] cZero msgDisable cZero rfl⟩

/-- C9 counterexample to the claim as stated: for this incoming message the
handler raises even though a responder is supplied, so the responder is not
invoked with `null`. -/
theorem C9_responder_counterexample :
    DrawingController.onTriggerVisualization [] { } msgNoFlags true
      = .error "TypeError: featureFlagStoreData is undefined" := rfl

/-- C1: for every enable request with `elementResults` present, the instances
passed to the current frame's Drawer are exactly the members of the
`frame: null` partition with `isVisible !== false` and
`isVisualizationEnabled !== false` (unset counts as shown), and the drawn
overlay consists exactly of them; in particular on the spec's four-instance
example exactly the last two instances are rendered. -/
theorem C1_visibility_filter (doc : List Nat) (c : DrawingController)
    (msg : VisualizationWindowMessage) (rs : List AssessmentVisualizationInstance)
    (ffsd : FeatureFlagStoreData) (d0 : Drawer)
    (h1 : msg.isEnabled = true) (h2 : msg.elementResults = some rs)
    (h3 : msg.featureFlagStoreData = some ffsd)
    (hdr : DrawingController.getDrawer c msg.configId = some d0) :
    (∀ p ∈ splitResultsByFrame rs, p.frame = none →
      ∃ c', DrawingController.processRequest doc c msg = .ok c' ∧
        (DrawingController.getDrawer c' msg.configId).map Drawer.initData
          = some (some (p.elementResults.filter Drawer.shouldRender)) ∧
        (DrawingController.getDrawer c' msg.configId).map Drawer.overlay
          = some (p.elementResults.filter Drawer.shouldRender)) ∧
    DrawingController.getInitialElements (some exampleInstances)
      = some [instExample3, instExample4] ∧
    ((Drawer.initWith { } (DrawingController.getInitialElements (some exampleInstances))
        (some ffsd)).drawLayout).overlay = [instExample3, instExample4] := by
  refine ⟨?_, by decide, rfl⟩
  intro p hp hpf
  rw [processRequest_enable_some doc c msg rs h1 h2]
  obtain ⟨c', hrun, hf1, hf2, hf3, hf4, hf5, hf6⟩ :=
    enableFrameLoop_spec msg.visualizationType msg.configId (splitResultsByFrame rs)
      { c with featureFlagStoreData := msg.featureFlagStoreData } ffsd d0 h3 hdr
  have hmem := split_null_mem_targetFrame rs p hp hpf
  have hnr : nullResults (splitResultsByFrame rs)
      = [rs.filter (fun r => decide (r.targetFrame = none))] := by
    rw [nullResults_split, if_pos hmem]
  have helems := split_null_elems rs p hp hpf
  refine ⟨c', hrun, ?_, ?_⟩
  · rw [hf6, hnr, helems]
    simp [nullRuns, nullRun, Drawer.initWith, Drawer.drawLayout]
  · rw [hf6, hnr, helems]
    simp [nullRuns, nullRun, Drawer.initWith, Drawer.drawLayout, filter_shouldRender_idem]

/-- C1 witness at the spec's four-instance input. -/
theorem C1_visibility_filter_witness :
    msgEnable.isEnabled = true ∧
    msgEnable.elementResults = some exampleInstances ∧
    msgEnable.featureFlagStoreData = some [(FeatureFlags.showInstanceVisibility, true)] ∧
    DrawingController.getDrawer cZero msgEnable.configId = some { } ∧
    ((∀ p ∈ splitResultsByFrame exampleInstances, p.frame = none →
      ∃ c', DrawingController.processRequest [] cZero msgEnable = .ok c' ∧
        (DrawingController.getDrawer c' msgEnable.configId).map Drawer.initData
          = some (some (p.elementResults.filter Drawer.shouldRender)) ∧
        (DrawingController.getDrawer c' msgEnable.configId).map Drawer.overlay
          = some (p.elementResults.filter Drawer.shouldRender)) ∧
    DrawingController.getInitialElements (some exampleInstances)
      = some [instExample3, instExample4] ∧
    ((Drawer.initWith { } (DrawingController.getInitialElements (some exampleInstances))
        (some [(FeatureFlags.showInstanceVisibility, true)])).drawLayout).overlay
      = [instExample3, instExample4]) :=
  ⟨rfl, rfl, rfl, rfl,
    C1_visibility_filter [] cZero msgEnable exampleInstances
      [(FeatureFlags.showInstanceVisibility, true)] { } rfl rfl rfl rfl⟩

/-- C3: for every enable request with `elementResults` present,
`processRequest` partitions the results by frame; the messages sent are
exactly one scoped enable message per non-null partition, carrying that
partition's `elementResults`, the configId, the visualizationType and the
feature-flag data (`loopSends`); for the `frame: null` partition the current
frame's drawer is initialized and drawn with the visible+enabled subset and
visibility tracking starts exactly when the instance-visibility flag is set;
with no `frame: null` partition the drawer and intervals are untouched. -/
theorem C3_enable_with_data (doc : List Nat) (c : DrawingController)
    (msg : VisualizationWindowMessage) (rs : List AssessmentVisualizationInstance)
    (ffsd : FeatureFlagStoreData) (d0 : Drawer)
    (h1 : msg.isEnabled = true) (h2 : msg.elementResults = some rs)
    (h3 : msg.featureFlagStoreData = some ffsd)
    (hdr : DrawingController.getDrawer c msg.configId = some d0) :
    ∃ c', DrawingController.processRequest doc c msg = .ok c' ∧
      c'.sent = c.sent ++ loopSends msg.visualizationType msg.configId (some ffsd)
        (splitResultsByFrame rs) ∧
      (∀ p ∈ splitResultsByFrame rs, p.frame = none →
        DrawingController.getDrawer c' msg.configId
          = some ((d0.initWith (some (p.elementResults.filter Drawer.shouldRender))
              (some ffsd)).drawLayout) ∧
        c'.intervals = (if flagValue ffsd FeatureFlags.showInstanceVisibility then
            DrawingController.createVisibilityCheckerInterval c.intervals msg.configId
              msg.visualizationType
          else c.intervals)) ∧
      ((∀ p ∈ splitResultsByFrame rs, p.frame ≠ none) →
        DrawingController.getDrawer c' msg.configId = some d0 ∧
        c'.intervals = c.intervals) := by
  rw [processRequest_enable_some doc c msg rs h1 h2]
  obtain ⟨c', hrun, hf1, hf2, hf3, hf4, hf5, hf6⟩ :=
    enableFrameLoop_spec msg.visualizationType msg.configId (splitResultsByFrame rs)
      { c with featureFlagStoreData := msg.featureFlagStoreData } ffsd d0 h3 hdr
  refine ⟨c', hrun, hf4, ?_, ?_⟩
  · intro p hp hpf
    have hmem := split_null_mem_targetFrame rs p hp hpf
    have hnr : nullResults (splitResultsByFrame rs)
        = [rs.filter (fun r => decide (r.targetFrame = none))] := by
      rw [nullResults_split, if_pos hmem]
    have helems := split_null_elems rs p hp hpf
    constructor
    · rw [hf6, hnr, helems]
      simp [nullRuns, nullRun]
    · rw [hf5, hnr]
      simp [nullRuns, nullRun]
  · intro hall
    have hnone : none ∉ rs.map AssessmentVisualizationInstance.targetFrame := by
      intro hmem
      obtain ⟨r, hr, hrf⟩ := List.mem_map.mp hmem
      obtain ⟨p, hp, hpf⟩ := mem_split_null rs r hr hrf
      exact hall p hp hpf
    have hnr : nullResults (splitResultsByFrame rs) = [] := by
      rw [nullResults_split, if_neg hnone]
    constructor
    · rw [hf6, hnr]
      rfl
    · rw [hf5, hnr]
      rfl

/-- C3 witness at the spec's four-instance input. -/
theorem C3_enable_with_data_witness :
    msgEnable.isEnabled = true ∧
    msgEnable.elementResults = some exampleInstances ∧
    msgEnable.featureFlagStoreData = some [(FeatureFlags.showInstanceVisibility, true)] ∧
    DrawingController.getDrawer cZero msgEnable.configId = some { } ∧
    (∃ c', DrawingController.processRequest [] cZero msgEnable = .ok c' ∧
      c'.sent = cZero.sent ++ loopSends msgEnable.visualizationType msgEnable.configId
        (some [(FeatureFlags.showInstanceVisibility, true)])
        (splitResultsByFrame exampleInstances) ∧
      (∀ p ∈ splitResultsByFrame exampleInstances, p.frame = none →
        DrawingController.getDrawer c' msgEnable.configId
          = some ((Drawer.initWith { } (some (p.elementResults.filter Drawer.shouldRender))
              (some [(FeatureFlags.showInstanceVisibility, true)])).drawLayout) ∧
        c'.intervals = (if flagValue [(FeatureFlags.showInstanceVisibility, true)]
              FeatureFlags.showInstanceVisibility then
            DrawingController.createVisibilityCheckerInterval cZero.intervals
              msgEnable.configId msgEnable.visualizationType
          else cZero.intervals)) ∧
      ((∀ p ∈ splitResultsByFrame exampleInstances, p.frame ≠ none) →
        DrawingController.getDrawer c' msgEnable.configId = some { } ∧
        c'.intervals = cZero.intervals)) :=
  ⟨rfl, rfl, rfl, rfl,
    C3_enable_with_data [] cZero msgEnable exampleInstances
      [(FeatureFlags.showInstanceVisibility, true)] { } rfl rfl rfl rfl⟩

/-- C8: `initController` subscribes once and builds the full registry by
enumerating every visualization type (and, for assessment-style types, every
step) with configIds derived from the configuration's identifier function;
the registry holds at most one drawer per configId (its key list has no
duplicates and its keys are exactly the enumerated configIds), and neither a
successful `processRequest` nor `dispose` ever adds or removes an entry. -/
theorem C8_registry_lifecycle (deps : ControllerDeps) (c cI : DrawingController)
    (doc : List Nat) (msg : VisualizationWindowMessage) (c₂ : DrawingController)
    (h : DrawingController.processRequest doc cI msg = .ok c₂) :
    (DrawingController.initController deps c).drawers = DrawingController.setupDrawers deps ∧
    (DrawingController.initController deps c).subscriptions
      = c.subscriptions ++ [DrawingController.triggerVisualizationCommand] ∧
    ((DrawingController.setupDrawers deps).map Prod.fst).Nodup ∧
    (∀ k, k ∈ (DrawingController.setupDrawers deps).map Prod.fst ↔ k ∈ allConfigIds deps) ∧
    c₂.drawers.map Prod.fst = cI.drawers.map Prod.fst ∧
    (DrawingController.dispose cI).drawers.map Prod.fst = cI.drawers.map Prod.fst := by
  refine ⟨rfl, rfl, ?_, ?_, processRequest_keys doc cI msg c₂ h, ?_⟩
  · rw [setupDrawers_eq]
    exact buildRegistry_go_nodup (allConfigIds deps) [] (by simp)
  · intro k
    rw [setupDrawers_eq]
    simpa [buildRegistry] using buildRegistry_go_mem (allConfigIds deps) [] k
  · show (cI.drawers.map (fun p => (p.1, p.2.eraseLayout))).map Prod.fst
      = cI.drawers.map Prod.fst
    rw [List.map_map]
    rfl

/-- C8 witness at a concrete dependency set and a successful disable. -/
theorem C8_registry_lifecycle_witness :
    DrawingController.processRequest [] cZero msgDisable = .ok cZero ∧
    ((DrawingController.initController depsExample { }).drawers
        = DrawingController.setupDrawers depsExample ∧
      (DrawingController.initController depsExample { }).subscriptions
        = ({ } : DrawingController).subscriptions
          ++ [DrawingController.triggerVisualizationCommand] ∧
      ((DrawingController.setupDrawers depsExample).map Prod.fst).Nodup ∧
      (∀ k, k ∈ (DrawingController.setupDrawers depsExample).map Prod.fst
        ↔ k ∈ allConfigIds depsExample) ∧
      cZero.drawers.map Prod.fst = cZero.drawers.map Prod.fst ∧
      (DrawingController.dispose cZero).drawers.map Prod.fst
        = cZero.drawers.map Prod.fst) :=
  ⟨rfl, C8_registry_lifecycle depsExample { } cZero [] msgDisable cZero rfl⟩
